import Mathlib

/-!
Formal model of the tides-web position-driven data-synchronization core.

The definitions below are shallow embeddings of the TypeScript sources:

* JavaScript numbers are modelled as exact rationals (`ℚ`); where `NaN` is
  reachable the slot is an `Option ℚ` with `none` standing for `NaN`.
  Rationals are constructed with `mkRat` and inspected through `num`/`den`
  so that every definition evaluates by kernel reduction.
* Timestamps (`Date.now()`) are integers, in epoch milliseconds.
* A JavaScript `Map` is an association list kept in insertion order, with
  `Map.set` updating an existing key in place and appending a fresh key.
* Fallible operations return `Option` or `Except` instead of throwing.
-/

/-! ## JavaScript primitive models -/

/-- Truthiness of a `string | null | undefined` value: absent and `""` are falsy. -/
def strTruthy : Option String → Bool
  | none => false
  | some s => !(s == "")

/-- Model of `a || b` where `a` is an optional string and `b` the fallback. -/
def jsStrOr (a : Option String) (b : String) : String :=
  match a with
  | some s => if s == "" then b else s
  | none => b

/-- Model of `x || d` where `x` is a parsed number with `none` standing for
`NaN`: both `NaN` and `0` are falsy, so they fall through to the default. -/
def jsNumOr (x : Option ℚ) (d : ℚ) : ℚ :=
  match x with
  | none => d
  | some q => if q = 0 then d else q

/-- Numeric value of a list of decimal digit characters. -/
def digitsToNat (ds : List Char) : Nat :=
  ds.foldl (fun a c => a * 10 + (c.toNat - 48)) 0

/-- Model of JavaScript `parseFloat` for plain decimal strings: an optional
sign, then digits with an optional fractional part; the longest numeric
prefix is parsed and `none` models the `NaN` result when no digit is found.
(Exponents and leading whitespace are outside the model; no input in this
development uses them.) -/
def parseFloatM (s : String) : Option ℚ :=
  let cs := s.data
  let (sign, cs1) :=
    match cs with
    | '-' :: r => (true, r)
    | '+' :: r => (false, r)
    | _ => (false, cs)
  let intDs := cs1.takeWhile Char.isDigit
  let rest := cs1.dropWhile Char.isDigit
  let fracDs :=
    match rest with
    | '.' :: r2 => r2.takeWhile Char.isDigit
    | _ => []
  if intDs.isEmpty && fracDs.isEmpty then none
  else
    let mant : Nat := digitsToNat intDs * 10 ^ fracDs.length + digitsToNat fracDs
    let mantI : Int := if sign then -(mant : Int) else (mant : Int)
    some (mkRat mantI (10 ^ fracDs.length))

/-- Model of JavaScript `parseInt(s, 10)`: an optional sign then decimal
digits; parsing stops at the first non-digit, and `none` models `NaN`. -/
def parseIntM (s : String) : Option ℚ :=
  let cs := s.data
  let (sign, cs1) :=
    match cs with
    | '-' :: r => (true, r)
    | '+' :: r => (false, r)
    | _ => (false, cs)
  let ds := cs1.takeWhile Char.isDigit
  if ds.isEmpty then none
  else
    let n : Int := if sign then -(digitsToNat ds : Int) else (digitsToNat ds : Int)
    some ((n : ℚ))

/-- round(|q| * 10000), ties away from zero, computed on the numerator and
denominator so that it evaluates by kernel reduction. -/
def round4abs (q : ℚ) : Nat :=
  (q.num.natAbs * 10000 * 2 + q.den) / (2 * q.den)

/-- Model of JavaScript `Number.prototype.toFixed(4)` for rational values:
the sign, the integer part, a dot, and exactly four (zero-padded) fraction
digits, rounding ties away from zero. -/
def toFixed4 (q : ℚ) : String :=
  let n := round4abs q
  let whole := n / 10000
  let frac := n % 10000
  let fs := toString frac
  let pad := String.mk (List.replicate (4 - fs.length) '0')
  (if q < 0 then "-" else "") ++ toString whole ++ "." ++ pad ++ fs

/-! ## Data model (`src/types.ts`) -/

/-- MapPosition from `src/types.ts`. The `zoom` slot is an `Option ℚ` because
`NaN` is reachable for it (a URL `zoom` parameter that fails `parseInt`);
`none` stands for `NaN`, `some q` for an ordinary number. -/
structure MapPosition where
  lat : ℚ
  lon : ℚ
  zoom : Option ℚ
  deriving DecidableEq, Repr

/-- DEFAULT_POSITION from `src/App.tsx`: lat 35.6, lon 139.8, zoom 10. -/
def DEFAULT_POSITION : MapPosition :=
  { lat := mkRat 356 10, lon := mkRat 1398 10, zoom := some 10 }

/-- LOADING_LOCATION_NAME sentinel from `src/App.tsx`. -/
def LOADING_LOCATION_NAME : String := "Loading..."

/-- TidePrediction from `src/types.ts`; `depth_m` is optional (absent on land). -/
structure TidePrediction where
  time : String
  height_m : ℚ
  depth_m : Option ℚ
  deriving DecidableEq, Repr

/-- TideExtreme from `src/types.ts`. -/
structure TideExtreme where
  time : String
  depth_m : ℚ
  deriving DecidableEq, Repr

/-- The `extrema` object of a TidePredictionsResponse. -/
structure TideExtrema where
  highs : List TideExtreme
  lows : List TideExtreme
  deriving DecidableEq, Repr

/-- TidePredictionsResponse from `src/types.ts`; `extrema` is optional. -/
structure TidePredictionsResponse where
  predictions : List TidePrediction
  extrema : Option TideExtrema
  source : String
  locationLat : ℚ
  locationLon : ℚ
  deriving DecidableEq, Repr

/-! ## Last-position store (`src/utils/lastPositionStorage.ts`) -/

/-- STORAGE_TTL: 30 days in milliseconds. -/
def STORAGE_TTL : Int := 2592000000

/-- The observable shape of a JSON value parsed from the last-position
storage key, restricted to the fields `loadLastPosition` accesses.

* `timestampNum` is the JavaScript numeric coercion of `data.timestamp` as
  used by `Date.now() - data.timestamp`: `some t` when the coercion yields
  the number `t`, `none` when it yields `NaN` (field missing or
  non-numeric).  JSON cannot encode `NaN` itself, so a present numeric
  timestamp is always a real number.
* `position` is `none` when `data.position` is falsy (missing, `null`, `0`,
  `""`, `false`); otherwise the triple gives `data.position.lat / lon /
  zoom`, each `some q` exactly when the field is a number.
* `locationName` is `some s` exactly when the field is a string. -/
structure JRecord where
  timestampNum : Option Int
  position : Option (Option ℚ × Option ℚ × Option ℚ)
  locationName : Option String
  deriving DecidableEq, Repr

/-- A stored string is either unparseable JSON or parses to a record. -/
inductive StoredJson where
  | parseError
  | value (d : JRecord)
  deriving DecidableEq, Repr

/-- LastPositionData as returned by `loadLastPosition` (the function returns
the parsed record itself, so the unvalidated `timestamp` field stays an
`Option`). -/
structure LastPositionData where
  position : MapPosition
  locationName : String
  timestamp : Option Int
  deriving DecidableEq, Repr

/-- loadLastPosition from `src/utils/lastPositionStorage.ts`.  The first
component of the result is the storage content afterwards (the expiry
branch removes the stored item), the second the returned value.  `now` is
`Date.now()`. All failure paths yield `none` instead of throwing. -/
def loadLastPosition (st : Option StoredJson) (now : Int) :
    Option StoredJson × Option LastPositionData :=
  match st with
  | none => (none, none)
  | some StoredJson.parseError => (some StoredJson.parseError, none)
  | some (StoredJson.value d) =>
    -- `Date.now() - data.timestamp > STORAGE_TTL`; when the timestamp
    -- coerces to NaN the comparison is false, so the record is unexpired.
    if (match d.timestampNum with
        | some t => decide (now - t > STORAGE_TTL)
        | none => false) then
      (none, none)
    else
      match d.position, d.locationName with
      | some (some la, some lo, some zo), some nm =>
        (some (StoredJson.value d),
         some { position := { lat := la, lon := lo, zoom := some zo },
                locationName := nm, timestamp := d.timestampNum })
      | _, _ => (some (StoredJson.value d), none)

/-! ## URL position deserializer (`src/App.tsx`, `mapPositionUrlOptions`) -/

/-- The URL branch of `mapPositionUrlOptions.deserialize`: both `lat` and
`lon` are present and truthy, so each coordinate is parsed with a per-field
fallback (`parseFloat(x) || DEFAULT`), and zoom falls back only when the
parameter is absent or empty. -/
def urlBranchPosition (la lo : String) (zoomP : Option String) : MapPosition :=
  { lat := jsNumOr (parseFloatM la) DEFAULT_POSITION.lat
    lon := jsNumOr (parseFloatM lo) DEFAULT_POSITION.lon
    zoom :=
      match zoomP with
      | some z => if z == "" then DEFAULT_POSITION.zoom else parseIntM z
      | none => DEFAULT_POSITION.zoom }

/-- The storage fallback of `mapPositionUrlOptions.deserialize`: consult the
last-position store, else the hardcoded default. -/
def storageFallbackPosition (st : Option StoredJson) (now : Int) : MapPosition :=
  match (loadLastPosition st now).2 with
  | some rec => rec.position
  | none => DEFAULT_POSITION

/-- mapPositionUrlOptions.deserialize from `src/App.tsx`: `lat`, `lon` and
`zoom` are the query parameters (`none` when absent), `st`/`now` model the
localStorage content and clock consulted by `loadLastPosition`. -/
def mapPositionDeserialize (latP lonP zoomP : Option String)
    (st : Option StoredJson) (now : Int) : MapPosition :=
  match latP, lonP with
  | some la, some lo =>
    -- `if (lat && lon)`: both strings present and non-empty
    if la == "" || lo == "" then storageFallbackPosition st now
    else urlBranchPosition la lo zoomP
  | _, _ => storageFallbackPosition st now

/-! ## Geocoding cache (`src/hooks/useGeocodingCache.ts`) -/

/-- CACHE_TTL: 30 minutes in milliseconds. -/
def CACHE_TTL : Int := 1800000

/-- MAX_CACHE_SIZE from `src/hooks/useGeocodingCache.ts`. -/
def MAX_CACHE_SIZE : Nat := 100

/-- A cache entry: `GeocodeCache` interface from the source. -/
structure GeocodeCache where
  locationName : String
  timestamp : Int
  deriving DecidableEq, Repr

/-- The cache `Map<string, GeocodeCache>`, as an insertion-ordered
association list. -/
abbrev CacheMap := List (String × GeocodeCache)

/-- getCacheKey from the source: both coordinates via `toFixed(4)`, joined
with a comma. -/
def getCacheKey (lat lon : ℚ) : String :=
  toFixed4 lat ++ "," ++ toFixed4 lon

/-- JavaScript `Map.get`. -/
def mapFindVal (m : CacheMap) (k : String) : Option GeocodeCache :=
  (m.find? (fun p => p.1 == k)).map (fun p => p.2)

/-- JavaScript `Map.delete` (keys in a `Map` are unique, so removing every
pair with the key is the same operation). -/
def mapDelete (m : CacheMap) (k : String) : CacheMap :=
  m.filter (fun p => !(p.1 == k))

/-- JavaScript `Map.set`: an existing key keeps its position in insertion
order and gets the new value; a fresh key is appended. -/
def mapSet (m : CacheMap) (k : String) (v : GeocodeCache) : CacheMap :=
  if m.any (fun p => p.1 == k) then
    m.map (fun p => if p.1 == k then (k, v) else p)
  else m ++ [(k, v)]

/-- get from `useGeocodingCache`: round the coordinates into the key, look
up; a hit older than the TTL is deleted and reported as a miss.  Returns the
cache afterwards together with the result; `now` is `Date.now()`. -/
def cacheGet (m : CacheMap) (lat lon : ℚ) (now : Int) : CacheMap × Option String :=
  let key := getCacheKey lat lon
  match mapFindVal m key with
  | none => (m, none)
  | some c =>
    if now - c.timestamp > CACHE_TTL then (mapDelete m key, none)
    else (m, some c.locationName)

/-- set from `useGeocodingCache`: when the map already holds
`MAX_CACHE_SIZE` entries, the first key in insertion order is deleted
(`if (firstKey)` skips a falsy — empty — key, which no `getCacheKey` result
ever is), then the new entry is written. -/
def cacheSet (m : CacheMap) (lat lon : ℚ) (locationName : String) (now : Int) : CacheMap :=
  let key := getCacheKey lat lon
  let m1 :=
    if m.length ≥ MAX_CACHE_SIZE then
      match m.head? with
      | some p => if p.1 == "" then m else mapDelete m p.1
      | none => m
    else m
  mapSet m1 key { locationName := locationName, timestamp := now }

/-- clear from `useGeocodingCache`. -/
def cacheClear (_m : CacheMap) : CacheMap := []

/-- One `set` call of a scenario: coordinates, name, and the `Date.now()`
value at the time of the call. -/
structure SetCall where
  lat : ℚ
  lon : ℚ
  name : String
  now : Int
  deriving DecidableEq, Repr

/-- The rounded-coordinate key of a `set` call. -/
def keyOf (x : SetCall) : String := getCacheKey x.lat x.lon

/-- The map entry a `set` call writes. -/
def entryOf (x : SetCall) : String × GeocodeCache :=
  (keyOf x, { locationName := x.name, timestamp := x.now })

/-- Run a sequence of `set` calls against a cache. -/
def cacheSetMany (m : CacheMap) (l : List SetCall) : CacheMap :=
  l.foldl (fun acc x => cacheSet acc x.lat x.lon x.name x.now) m

/-! ## Prediction client (`src/services/tidesApi.ts`) -/

/-- TidesApiError: the message, and the HTTP status code when one was
attached (`RequestFailed` errors carry it, transport-level wraps do not). -/
structure TidesApiError where
  message : String
  statusCode : Option Nat
  deriving DecidableEq, Repr

/-- The environment of one `fetchTidePredictions` call, exactly what the
function observes: either `fetch` itself rejects with a message (no
response at all), or a response arrives with its `ok` flag, status code,
and the outcomes of its two fallible body reads — `bodyText` is what
`await response.text()` would yield (read in the non-ok branch) and `json`
what `await response.json()` would yield (read in the ok branch); in both,
`Except.error` carries the rejection's message. -/
inductive FetchOutcome where
  | fetchFailed (msg : String)
  | response (ok : Bool) (status : Nat) (bodyText : Except String String)
      (json : Except String TidePredictionsResponse)
  deriving Repr

/-- fetchTidePredictions from `src/services/tidesApi.ts`, as a function of
the fetch environment.  A non-ok response whose error body is read
successfully throws a `TidesApiError` carrying the status and the body
text; any other exception inside the `try` (the rejected fetch, a
rejecting `response.text()` on the non-ok path, or a failing
`response.json()` on the ok path) is caught and wrapped into a status-less
"Network error" `TidesApiError`. -/
def fetchTidePredictions (o : FetchOutcome) : Except TidesApiError TidePredictionsResponse :=
  match o with
  | FetchOutcome.fetchFailed msg =>
    Except.error { message := "Network error while fetching tide predictions: " ++ msg,
                   statusCode := none }
  | FetchOutcome.response ok status bodyText json =>
    if ok then
      match json with
      | Except.ok data => Except.ok data
      | Except.error msg =>
        Except.error { message := "Network error while fetching tide predictions: " ++ msg,
                       statusCode := none }
    else
      match bodyText with
      | Except.ok errorText =>
        Except.error { message := "Failed to fetch tide predictions: " ++ errorText,
                       statusCode := some status }
      | Except.error msg =>
        Except.error { message := "Network error while fetching tide predictions: " ++ msg,
                       statusCode := none }

/-- Whether the environment had a transport failure (no response obtained). -/
def FetchOutcome.isTransportFailure : FetchOutcome → Bool
  | FetchOutcome.fetchFailed _ => true
  | FetchOutcome.response _ _ _ _ => false

/-- Whether an error is a `RequestFailed` condition: it carries an HTTP
status code. -/
def TidesApiError.isRequestFailed (e : TidesApiError) : Bool :=
  e.statusCode.isSome

/-! ## Position coordinator (`src/App.tsx`) -/

/-- The prediction-related reactive state of the App component. -/
structure TideState where
  predictions : List TidePrediction
  highs : List TideExtreme
  lows : List TideExtreme
  loading : Bool
  error : Option String
  deriving DecidableEq, Repr

/-- The synchronous prefix of the `fetchData` effect: `setLoading(true)` and
`setError(null)` before awaiting the fetch. -/
def fetchDataStart (s : TideState) : TideState :=
  { s with loading := true, error := none }

/-- The continuation of the `fetchData` effect once the fetch has settled:
on success the predictions and the extrema (or `[]` when the response has
none) replace the state; on failure the error message is recorded and
`setPredictions([])` runs — the `highs`/`lows` state is left as it was.
The `finally` clause clears the loading flag in both branches. -/
def fetchDataFinish (s : TideState)
    (r : Except TidesApiError TidePredictionsResponse) : TideState :=
  match r with
  | Except.ok resp =>
    { s with
      predictions := resp.predictions
      highs := match resp.extrema with | some e => e.highs | none => []
      lows := match resp.extrema with | some e => e.lows | none => []
      loading := false }
  | Except.error e =>
    { s with
      error := some e.message
      predictions := []
      loading := false }

/-- A whole fetch cycle: the synchronous prefix followed by the settled
continuation. -/
def fetchDataCycle (s : TideState)
    (r : Except TidesApiError TidePredictionsResponse) : TideState :=
  fetchDataFinish (fetchDataStart s) r

/-- The position-related state the `handlePositionChange` callback touches. -/
structure CoordState where
  mapPosition : MapPosition
  loadPosition : MapPosition
  locationName : String
  deriving DecidableEq, Repr

/-- handlePositionChange from `src/App.tsx`.  The optional `immediate`
parameter is modelled as a `Bool` (`false` also covers the absent case):
`setMapPosition` always runs; when `immediate` is set, `setLocationName` is
reset to the loading sentinel and `setLoadPosition` fires in the same step. -/
def handlePositionChange (s : CoordState) (position : MapPosition)
    (immediate : Bool) : CoordState :=
  let s1 := { s with mapPosition := position }
  if immediate then
    { s1 with locationName := LOADING_LOCATION_NAME, loadPosition := position }
  else s1

/-! ## Reverse-geocoding name composition (`src/App.tsx`, geocode callback) -/

/-- One `address_components` element of a geocoder result. -/
structure AddressComponent where
  long_name : String
  types : List String
  deriving DecidableEq, Repr

/-- One geocoder result. -/
structure GeocodeResult where
  address_components : List AddressComponent
  deriving DecidableEq, Repr

/-- Whether a result has locality-level information (the prioritization
predicate of the callback). -/
def hasLocalityInfo (r : GeocodeResult) : Bool :=
  r.address_components.any (fun c =>
    c.types.any (fun t =>
      ["locality", "sublocality", "sublocality_level_1",
       "sublocality_level_2"].contains t))

/-- The first component carrying the given type, as in
`components.find((c) => c.types.includes(ty))?.long_name`. -/
def findComponentName (components : List AddressComponent) (ty : String) : Option String :=
  (components.find? (fun c => c.types.contains ty)).map (fun c => c.long_name)

/-- The display-name composition of the geocode callback, from the chosen
result's components: `sublocality_level_2` + locality when both are truthy,
otherwise the first truthy of locality, administrative area, country, and
the "Unknown Location" fallback. -/
def composeLocationName (components : List AddressComponent) : String :=
  let locality := findComponentName components "locality"
  let sublocality := findComponentName components "sublocality_level_2"
  let admin := findComponentName components "administrative_area_level_1"
  let country := findComponentName components "country"
  if strTruthy sublocality && strTruthy locality then
    jsStrOr sublocality "" ++ ", " ++ jsStrOr locality ""
  else
    jsStrOr locality (jsStrOr admin (jsStrOr country ("Unknown Location")))

/-- The geocode callback of `src/App.tsx`: on an `OK` status with a
non-empty result list, the most detailed result (the first with locality
information, else the first overall) is composed into the display name;
every other case yields "Unknown Location".  A `null` result list is
modelled as `[]`. -/
def geocodeCallback (status : String) (results : List GeocodeResult) : String :=
  match results with
  | [] => "Unknown Location"
  | r0 :: _ =>
    if status == "OK" then
      composeLocationName
        (((results.find? hasLocalityInfo).getD r0).address_components)
    else "Unknown Location"

/-! ## URL-state synchronizer (`src/hooks/useUrlState.ts`) -/

/-- URLSearchParams.set: the first pair with the key takes the new value and
later duplicates are dropped; a fresh key is appended. -/
def paramsSet (ps : List (String × String)) (k v : String) : List (String × String) :=
  match ps with
  | [] => [(k, v)]
  | p :: rest =>
    if p.1 == k then (k, v) :: rest.filter (fun q => !(q.1 == k))
    else p :: paramsSet rest k v

/-- URLSearchParams.delete. -/
def paramsDelete (ps : List (String × String)) (k : String) : List (String × String) :=
  ps.filter (fun p => !(p.1 == k))

/-- URLSearchParams.get. -/
def paramsGet (ps : List (String × String)) (k : String) : Option String :=
  (ps.find? (fun p => p.1 == k)).map (fun p => p.2)

/-- The per-key update loop of the URL-sync effect: a truthy (non-empty)
serialized value is written, a falsy one removes the key. -/
def applySerialized (ps : List (String × String))
    (serialized : List (String × String)) : List (String × String) :=
  serialized.foldl
    (fun acc kv => if kv.2 == "" then paramsDelete acc kv.1 else paramsSet acc kv.1 kv.2)
    ps

/-- The page state the URL-sync effect can observe and change: how many
entries the session history holds, and the current query parameters. -/
structure Browser where
  historyCount : Nat
  query : List (String × String)
  deriving DecidableEq, Repr

/-- The URL-update effect of `useUrlState`: on the first render it only
clears the first-render flag; afterwards it rewrites the query parameters
from the serialized state and calls `history.pushState` (a new history
entry, not a replacement).  Returns the flag and the page state afterwards. -/
def urlUpdateEffect (isFirstRender : Bool) (b : Browser)
    (serialized : List (String × String)) : Bool × Browser :=
  if isFirstRender then (false, b)
  else
    (isFirstRender,
     { historyCount := b.historyCount + 1
       query := applySerialized b.query serialized })

/-! ## Concrete scenario inputs -/

/-- A stored record whose `timestamp` field is missing (coerces to `NaN`)
while every validated field is well-typed. -/
def c4Record : JRecord :=
  { timestampNum := none
    position := some (some 1, some 2, some 3)
    locationName := some "Tokyo" }

/-- A well-formed stored record used to exercise the happy path. -/
def c4GoodRecord : JRecord :=
  { timestampNum := some 0
    position := some (some 1, some 2, some 3)
    locationName := some "Tokyo" }

/-- 101 `set` calls with pairwise distinct rounded-coordinate keys, all at
clock 0. -/
def c5Calls : List SetCall :=
  (List.range 101).map (fun i => { lat := (i : ℚ), lon := 0, name := "L", now := 0 })

/-! # Theorems -/

/-- C2: an immediate position-change event sets `mapPosition` to the new
value, sets `loadPosition` to the same value, and resets `locationName` to
the loading sentinel, all in the same synchronous step; a passive event
(immediate flag false or absent) updates only `mapPosition`, leaving
`loadPosition` and `locationName` untouched. -/
theorem handlePositionChange_immediate_vs_passive (s : CoordState) (pos : MapPosition) :
    handlePositionChange s pos true =
      { mapPosition := pos, loadPosition := pos,
        locationName := LOADING_LOCATION_NAME } ∧
    handlePositionChange s pos false = { s with mapPosition := pos } ∧
    (handlePositionChange s pos false).loadPosition = s.loadPosition ∧
    (handlePositionChange s pos false).locationName = s.locationName := by
  refine ⟨rfl, rfl, rfl, rfl⟩

/-- C1 counterexample: after a failed fetch the `highs` and `lows` state is
NOT cleared — only `predictions` becomes empty — so the claim that all
three become empty on failure is false on the code. -/
theorem fetchData_failure_keeps_extrema :
    (fetchDataCycle
        { predictions := [], highs := [{ time := "t1", depth_m := 12 }],
          lows := [{ time := "t2", depth_m := 8 }], loading := false, error := none }
        (Except.error { message := "Failed to fetch tide predictions: Not found",
                        statusCode := some 404 })).highs
      = [{ time := "t1", depth_m := 12 }] ∧
    (fetchDataCycle
        { predictions := [], highs := [{ time := "t1", depth_m := 12 }],
          lows := [{ time := "t2", depth_m := 8 }], loading := false, error := none }
        (Except.error { message := "Failed to fetch tide predictions: Not found",
                        statusCode := some 404 })).lows
      = [{ time := "t2", depth_m := 8 }] ∧
    [({ time := "t1", depth_m := 12 } : TideExtreme)] ≠ [] := by
  refine ⟨rfl, rfl, by decide⟩

/-- C1 (amended): every fetch cycle sets the loading flag and clears the
error at the start; on success the predictions, highs and lows are replaced
by the response contents with the error still clear; on failure an error
message derived from the failure is set and `predictions` becomes empty
while `highs` and `lows` retain their previous values; in both outcomes the
loading flag is cleared afterwards. -/
theorem fetchData_cycle_behavior (s : TideState)
    (resp : TidePredictionsResponse) (e : TidesApiError) :
    ((fetchDataStart s).loading = true ∧ (fetchDataStart s).error = none) ∧
    (fetchDataCycle s (Except.ok resp)).loading = false ∧
    (fetchDataCycle s (Except.error e)).loading = false ∧
    fetchDataCycle s (Except.ok resp) =
      { predictions := resp.predictions
        highs := match resp.extrema with | some x => x.highs | none => []
        lows := match resp.extrema with | some x => x.lows | none => []
        loading := false, error := none } ∧
    ((fetchDataCycle s (Except.error e)).error = some e.message ∧
     (fetchDataCycle s (Except.error e)).predictions = [] ∧
     (fetchDataCycle s (Except.error e)).highs = s.highs ∧
     (fetchDataCycle s (Except.error e)).lows = s.lows) := by
  refine ⟨⟨rfl, rfl⟩, rfl, rfl, rfl, rfl, rfl, rfl, rfl⟩

/-- C7 counterexample: a response with a success status whose body fails to
parse as JSON is wrapped into the status-less "Network error" condition,
even though a response was obtained — so "NetworkFailure exactly when no
response is obtained at all" is false on the code. -/
theorem fetchTidePredictions_networkError_without_transport_failure :
    fetchTidePredictions
        (FetchOutcome.response true 200 (Except.ok "")
          (Except.error "Unexpected end of JSON input"))
      = Except.error
          { message :=
              "Network error while fetching tide predictions: Unexpected end of JSON input",
            statusCode := none } ∧
    FetchOutcome.isTransportFailure
        (FetchOutcome.response true 200 (Except.ok "")
          (Except.error "Unexpected end of JSON input"))
      = false := by
  refine ⟨rfl, rfl⟩

/-- C7 (amended): `fetchTidePredictions` fails with a `RequestFailed`
condition (status code attached, message carrying the server body text)
exactly when the HTTP status is non-success and the error body is read
successfully; it fails with a status-less `NetworkFailure` condition
carrying the cause's message when the fetch itself rejects (no response),
when the error-body read of a non-success response rejects, and when a
success-status response body fails to parse as JSON; on a success status
with a parseable body it returns the parsed response unvalidated.  The
five conjuncts cover every constructor shape of the environment, so they
characterize the function exhaustively. -/
theorem fetchTidePredictions_error_taxonomy (status : Nat) (t msg : String)
    (resp : TidePredictionsResponse) (j : Except String TidePredictionsResponse)
    (bt : Except String String) :
    fetchTidePredictions (FetchOutcome.response false status (Except.ok t) j)
      = Except.error { message := "Failed to fetch tide predictions: " ++ t,
                       statusCode := some status } ∧
    fetchTidePredictions (FetchOutcome.fetchFailed msg)
      = Except.error { message := "Network error while fetching tide predictions: " ++ msg,
                       statusCode := none } ∧
    fetchTidePredictions (FetchOutcome.response false status (Except.error msg) j)
      = Except.error { message := "Network error while fetching tide predictions: " ++ msg,
                       statusCode := none } ∧
    fetchTidePredictions (FetchOutcome.response true status bt (Except.ok resp))
      = Except.ok resp ∧
    fetchTidePredictions (FetchOutcome.response true status bt (Except.error msg))
      = Except.error { message := "Network error while fetching tide predictions: " ++ msg,
                       statusCode := none } ∧
    (TidesApiError.isRequestFailed
        { message := "Failed to fetch tide predictions: " ++ t,
          statusCode := some status } = true) ∧
    (TidesApiError.isRequestFailed
        { message := "Network error while fetching tide predictions: " ++ msg,
          statusCode := none } = false) := by
  refine ⟨rfl, rfl, rfl, rfl, rfl, rfl, rfl⟩

/-- C4 counterexample: a stored record whose `timestamp` field is missing is
returned by `loadLastPosition` as long as the other fields validate (the
expiry check treats the `NaN` coercion as unexpired and the structure check
never looks at the timestamp) — contradicting the claim that the record is
returned only when a timestamp is present. -/
theorem loadLastPosition_missing_timestamp_returned :
    (loadLastPosition (some (StoredJson.value c4Record)) 0).2
      = some { position := { lat := 1, lon := 2, zoom := some 3 },
               locationName := "Tokyo", timestamp := none } ∧
    (loadLastPosition (some (StoredJson.value c4Record)) 0).2 ≠ none := by
  refine ⟨rfl, by decide⟩

/-- C4 (amended): `loadLastPosition` returns the stored record exactly when
it is present, parses as JSON, is not expired (a numeric timestamp within
the 30-day TTL; a missing or non-numeric timestamp coerces to `NaN` and is
treated as unexpired, since the timestamp field itself is never validated),
and has a truthy `position` with numeric `lat`/`lon`/`zoom` and a string
`locationName`; an expired record is deleted from storage as a side effect;
every other failure (nothing stored, unparseable JSON, missing or mistyped
validated fields) returns absent, and no path throws. -/
theorem loadLastPosition_behavior (d : JRecord) (now : Int) :
    (loadLastPosition none now = (none, none)) ∧
    (loadLastPosition (some StoredJson.parseError) now
      = (some StoredJson.parseError, none)) ∧
    (∀ t, d.timestampNum = some t → now - t > STORAGE_TTL →
      loadLastPosition (some (StoredJson.value d)) now = (none, none)) ∧
    ((∀ t, d.timestampNum = some t → now - t ≤ STORAGE_TTL) →
      (∀ la lo zo nm,
        d.position = some (some la, some lo, some zo) →
        d.locationName = some nm →
        loadLastPosition (some (StoredJson.value d)) now =
          (some (StoredJson.value d),
           some { position := { lat := la, lon := lo, zoom := some zo },
                  locationName := nm, timestamp := d.timestampNum })) ∧
      (d.position = none →
        loadLastPosition (some (StoredJson.value d)) now
          = (some (StoredJson.value d), none)) ∧
      (d.locationName = none →
        loadLastPosition (some (StoredJson.value d)) now
          = (some (StoredJson.value d), none)) ∧
      (∀ p, d.position = some p → (p.1 = none ∨ p.2.1 = none ∨ p.2.2 = none) →
        loadLastPosition (some (StoredJson.value d)) now
          = (some (StoredJson.value d), none))) := by
  obtain ⟨ts, pos, nm⟩ := d
  rcases ts with _ | t
  · refine ⟨rfl, rfl, ?_, ?_⟩
    · rintro t' h
      exact Option.noConfusion h
    · intro _
      refine ⟨?_, ?_, ?_, ?_⟩
      · rintro la lo zo nm2 rfl rfl
        rfl
      · rintro rfl
        rcases nm with _ | nm2 <;> rfl
      · rintro rfl
        rcases pos with _ | ⟨_ | la, ⟨_ | lo, _ | zo⟩⟩ <;> rfl
      · rintro ⟨pla, plo, pzo⟩ rfl hnone
        rcases pla with _ | la <;> rcases plo with _ | lo <;>
          rcases pzo with _ | zo <;> rcases nm with _ | nm2 <;>
          first
            | (rcases hnone with h | h | h <;> exact Option.noConfusion h)
            | rfl
  · refine ⟨rfl, rfl, ?_, ?_⟩
    · rintro t' h hgt
      cases h
      simp [loadLastPosition, hgt]
    · intro hle
      have hc : decide (now - t > STORAGE_TTL) = false := by
        simpa using not_lt.mpr (hle t rfl)
      refine ⟨?_, ?_, ?_, ?_⟩
      · rintro la lo zo nm2 rfl rfl
        simp [loadLastPosition, hc]
      · rintro rfl
        rcases nm with _ | nm2 <;> simp [loadLastPosition, hc]
      · rintro rfl
        rcases pos with _ | ⟨_ | la, ⟨_ | lo, _ | zo⟩⟩ <;>
          simp [loadLastPosition, hc]
      · rintro ⟨pla, plo, pzo⟩ rfl hnone
        rcases pla with _ | la <;> rcases plo with _ | lo <;>
          rcases pzo with _ | zo <;> rcases nm with _ | nm2 <;>
          first
            | (rcases hnone with h | h | h <;> exact Option.noConfusion h)
            | simp [loadLastPosition, hc]

/-- C4 witness: the behaviour theorem applied to a concrete well-formed,
unexpired record. -/
theorem loadLastPosition_behavior_witness :
    loadLastPosition (some (StoredJson.value c4GoodRecord)) 5 =
      (some (StoredJson.value c4GoodRecord),
       some { position := { lat := 1, lon := 2, zoom := some 3 },
              locationName := "Tokyo", timestamp := some 0 }) := by
  exact ((loadLastPosition_behavior c4GoodRecord 5).2.2.2
      (by intro t ht; cases ht; decide)).1 1 2 3 "Tokyo" rfl rfl

/-- Deleting a key from the cache map makes lookups for it misses. -/
theorem mapFindVal_delete (m : CacheMap) (k : String) :
    mapFindVal (mapDelete m k) k = none := by
  induction m with
  | nil => rfl
  | cons p rest ih =>
    by_cases h : p.1 == k
    · simpa [mapDelete, List.filter_cons, h] using ih
    · simp [mapDelete, mapFindVal, List.filter_cons, h]

/-- C6: `get` keys on the coordinates rounded to four decimals (equal
rounded strings give identical results); a present entry within the
30-minute TTL returns the cached name and leaves the cache unchanged; an
entry older than the TTL is removed and reported as a miss, and any
subsequent `get` for the same key is also a miss (reads never refresh
timestamps, so expiry is permanent). -/
theorem cacheGet_ttl_behavior (m : CacheMap) (lat lon lat2 lon2 : ℚ) (now now2 : Int) :
    (toFixed4 lat = toFixed4 lat2 → toFixed4 lon = toFixed4 lon2 →
      cacheGet m lat lon now = cacheGet m lat2 lon2 now) ∧
    (mapFindVal m (getCacheKey lat lon) = none → cacheGet m lat lon now = (m, none)) ∧
    (∀ c, mapFindVal m (getCacheKey lat lon) = some c → now - c.timestamp ≤ CACHE_TTL →
      cacheGet m lat lon now = (m, some c.locationName)) ∧
    (∀ c, mapFindVal m (getCacheKey lat lon) = some c → now - c.timestamp > CACHE_TTL →
      cacheGet m lat lon now = (mapDelete m (getCacheKey lat lon), none) ∧
      (cacheGet (mapDelete m (getCacheKey lat lon)) lat lon now2).2 = none) := by
  refine ⟨?_, ?_, ?_, ?_⟩
  · intro h1 h2
    simp [cacheGet, getCacheKey, h1, h2]
  · intro h
    simp [cacheGet, h]
  · intro c hc hle
    simp [cacheGet, hc, not_lt.mpr hle]
  · intro c hc hgt
    refine ⟨by simp [cacheGet, hc, hgt], ?_⟩
    simp [cacheGet, mapFindVal_delete]

/-- C6 witness: the TTL conjuncts applied to a one-entry cache holding the
rounded key of (35.6895, 139.6917): at 31 minutes the entry expires, is
deleted, and a repeated `get` still misses. -/
theorem cacheGet_ttl_behavior_witness :
    cacheGet [("35.6895,139.6917", { locationName := "Shinjuku", timestamp := 0 })]
        (mkRat 356895 10000) (mkRat 1396917 10000) 1860000
      = ([], none) ∧
    (cacheGet [] (mkRat 356895 10000) (mkRat 1396917 10000) 1860000).2 = none := by
  have h := (cacheGet_ttl_behavior
      [("35.6895,139.6917", { locationName := "Shinjuku", timestamp := 0 })]
      (mkRat 356895 10000) (mkRat 1396917 10000) 0 0 1860000 1860000).2.2.2
      { locationName := "Shinjuku", timestamp := 0 } (by decide) (by decide)
  exact ⟨h.1, h.2⟩

/-- C3: at startup the initial map position resolves in priority order —
with both `lat` and `lon` URL parameters present and non-empty the
URL-decoded position is used regardless of the stored record; otherwise the
last-position store is consulted, its record's position used when `load`
returns one (present and unexpired), and the hardcoded default
`lat 35.6, lon 139.8, zoom 10` used when it does not. -/
theorem initial_position_resolution (la lo : String) (zoomP latP lonP : Option String)
    (st : Option StoredJson) (now : Int) :
    (la ≠ "" → lo ≠ "" →
      mapPositionDeserialize (some la) (some lo) zoomP st now
        = urlBranchPosition la lo zoomP) ∧
    ((latP = none ∨ latP = some "" ∨ lonP = none ∨ lonP = some "") →
      mapPositionDeserialize latP lonP zoomP st now
        = storageFallbackPosition st now) ∧
    (∀ rec, (loadLastPosition st now).2 = some rec →
      storageFallbackPosition st now = rec.position) ∧
    ((loadLastPosition st now).2 = none →
      storageFallbackPosition st now = DEFAULT_POSITION) := by
  refine ⟨?_, ?_, ?_, ?_⟩
  · intro h1 h2
    simp [mapPositionDeserialize, h1, h2]
  · rintro (rfl | rfl | rfl | rfl)
    · rcases lonP with _ | lo2 <;> rfl
    · rcases lonP with _ | lo2 <;> simp [mapPositionDeserialize]
    · rcases latP with _ | la2 <;> rfl
    · rcases latP with _ | la2 <;> simp [mapPositionDeserialize]
  · intro rec h
    simp [storageFallbackPosition, h]
  · intro h
    simp [storageFallbackPosition, h]

/-- C3 witness: URL `?lat=40.7128&lon=-74.0060&zoom=12` resolves to that
position even though an unexpired stored record is present. -/
theorem initial_position_resolution_witness :
    mapPositionDeserialize (some "40.7128") (some "-74.0060") (some "12")
        (some (StoredJson.value c4GoodRecord)) 5
      = { lat := mkRat 407128 10000, lon := mkRat (-740060) 10000, zoom := some 12 } := by
  rw [(initial_position_resolution "40.7128" "-74.0060" (some "12") none none
      (some (StoredJson.value c4GoodRecord)) 5).1 (by decide) (by decide)]
  decide

/-- C10: with both `lat` and `lon` URL parameters present and non-empty, the
last-position store is not consulted (the result is independent of the
storage content and clock); a component that parses to `NaN` or `0` is
replaced by the corresponding default component alone, while a component
that parses to a nonzero number is kept; with a parameter absent or empty
the result comes from the storage fallback. -/
theorem url_component_fallback (la lo : String) (zoomP latP lonP : Option String)
    (st st2 : Option StoredJson) (now now2 : Int)
    (hla : la ≠ "") (hlo : lo ≠ "") :
    (mapPositionDeserialize (some la) (some lo) zoomP st now
      = mapPositionDeserialize (some la) (some lo) zoomP st2 now2) ∧
    ((parseFloatM la = none ∨ parseFloatM la = some 0) →
      (mapPositionDeserialize (some la) (some lo) zoomP st now).lat
        = DEFAULT_POSITION.lat) ∧
    ((parseFloatM lo = none ∨ parseFloatM lo = some 0) →
      (mapPositionDeserialize (some la) (some lo) zoomP st now).lon
        = DEFAULT_POSITION.lon) ∧
    (∀ q, parseFloatM la = some q → q ≠ 0 →
      (mapPositionDeserialize (some la) (some lo) zoomP st now).lat = q) ∧
    (∀ q, parseFloatM lo = some q → q ≠ 0 →
      (mapPositionDeserialize (some la) (some lo) zoomP st now).lon = q) ∧
    ((latP = none ∨ latP = some "" ∨ lonP = none ∨ lonP = some "") →
      mapPositionDeserialize latP lonP zoomP st now
        = storageFallbackPosition st now) := by
  refine ⟨?_, ?_, ?_, ?_, ?_, ?_⟩
  · simp [mapPositionDeserialize, hla, hlo]
  · rintro (h | h) <;> simp [mapPositionDeserialize, urlBranchPosition, hla, hlo, h, jsNumOr]
  · rintro (h | h) <;> simp [mapPositionDeserialize, urlBranchPosition, hla, hlo, h, jsNumOr]
  · intro q hq hq0
    simp [mapPositionDeserialize, urlBranchPosition, hla, hlo, hq, jsNumOr, hq0]
  · intro q hq hq0
    simp [mapPositionDeserialize, urlBranchPosition, hla, hlo, hq, jsNumOr, hq0]
  · rintro (rfl | rfl | rfl | rfl)
    · rcases lonP with _ | lo2 <;> rfl
    · rcases lonP with _ | lo2 <;> simp [mapPositionDeserialize]
    · rcases latP with _ | la2 <;> rfl
    · rcases latP with _ | la2 <;> simp [mapPositionDeserialize]

/-- C10 witness: `?lat=abc&lon=-74.0060` keeps the parsed longitude while
the unparseable latitude alone falls back to the default 35.6. -/
theorem url_component_fallback_witness :
    (mapPositionDeserialize (some "abc") (some "-74.0060") none none 0).lat
      = DEFAULT_POSITION.lat ∧
    (mapPositionDeserialize (some "abc") (some "-74.0060") none none 0).lon
      = mkRat (-740060) 10000 := by
  refine ⟨(url_component_fallback "abc" "-74.0060" none none none none none 0 0
      (by decide) (by decide)).2.1 (Or.inl (by decide)), ?_⟩
  exact (url_component_fallback "abc" "-74.0060" none none none none none 0 0
      (by decide) (by decide)).2.2.2.2.1 (mkRat (-740060) 10000) (by decide) (by decide)

/-- C8: with a chosen result whose components carry a truthy second-level
sub-locality and a truthy locality, the composed display name is
"sublocality, locality"; otherwise it is the first truthy of locality,
administrative area and country, with "Unknown Location" as the final
fallback; and a non-OK status or empty result list yields
"Unknown Location". -/
theorem geocode_name_composition (components : List AddressComponent)
    (status : String) (results : List GeocodeResult) (s l a cn : String) :
    (findComponentName components "sublocality_level_2" = some s → s ≠ "" →
     findComponentName components "locality" = some l → l ≠ "" →
      composeLocationName components = s ++ ", " ++ l) ∧
    ((strTruthy (findComponentName components "sublocality_level_2") &&
        strTruthy (findComponentName components "locality")) = false →
      ((findComponentName components "locality" = some l → l ≠ "" →
        composeLocationName components = l) ∧
       (strTruthy (findComponentName components "locality") = false →
        findComponentName components "administrative_area_level_1" = some a → a ≠ "" →
        composeLocationName components = a) ∧
       (strTruthy (findComponentName components "locality") = false →
        strTruthy (findComponentName components "administrative_area_level_1") = false →
        findComponentName components "country" = some cn → cn ≠ "" →
        composeLocationName components = cn) ∧
       (strTruthy (findComponentName components "locality") = false →
        strTruthy (findComponentName components "administrative_area_level_1") = false →
        strTruthy (findComponentName components "country") = false →
        composeLocationName components = "Unknown Location"))) ∧
    (status ≠ "OK" → geocodeCallback status results = "Unknown Location") ∧
    (geocodeCallback status [] = "Unknown Location") := by
  refine ⟨?_, ?_, ?_, ?_⟩
  · intro hs hs0 hl hl0
    simp [composeLocationName, hs, hl, strTruthy, hs0, hl0, jsStrOr]
  · intro hsub
    refine ⟨?_, ?_, ?_, ?_⟩
    · intro hl hl0
      simp only [composeLocationName, hsub, Bool.false_eq_true, if_false, reduceIte]
      simp [hl, hl0, jsStrOr]
    · intro hloc ha ha0
      have hl' := hloc
      rcases hfl : findComponentName components "locality" with _ | l2 <;>
        rw [hfl] at hl' <;>
        simp [composeLocationName, hsub, hfl, ha, strTruthy, ha0, jsStrOr] <;>
        simp [strTruthy, hfl] at hl' <;>
        simp [hl']
    · intro hloc hadm hc hc0
      rcases hfl : findComponentName components "locality" with _ | l2 <;>
        rcases hfa : findComponentName components "administrative_area_level_1"
          with _ | a2 <;>
        rw [hfl] at hloc <;> rw [hfa] at hadm <;>
        simp [strTruthy] at hloc hadm <;>
        simp [composeLocationName, hsub, hfl, hfa, hc, strTruthy, hc0, jsStrOr,
          hloc, hadm]
    · intro hloc hadm hcty
      rcases hfl : findComponentName components "locality" with _ | l2 <;>
        rcases hfa : findComponentName components "administrative_area_level_1"
          with _ | a2 <;>
        rcases hfc : findComponentName components "country" with _ | c2 <;>
        rw [hfl] at hloc <;> rw [hfa] at hadm <;> rw [hfc] at hcty <;>
        simp [strTruthy] at hloc hadm hcty <;>
        simp [composeLocationName, hsub, hfl, hfa, hfc, strTruthy, jsStrOr,
          hloc, hadm, hcty]
  · intro hst
    rcases results with _ | ⟨r0, rest⟩
    · rfl
    · simp [geocodeCallback, hst]
  · rfl

/-- C8 witness: components with sublocality_level_2 "Shibuya" and locality
"Tokyo" compose "Shibuya, Tokyo"; a single locality "Paris" composes
"Paris"; a failed status yields "Unknown Location". -/
theorem geocode_name_composition_witness :
    composeLocationName
        [{ long_name := "Shibuya", types := ["sublocality_level_2", "sublocality"] },
         { long_name := "Tokyo", types := ["locality"] }]
      = "Shibuya, Tokyo" ∧
    composeLocationName [{ long_name := "Paris", types := ["locality"] }]
      = "Paris" ∧
    geocodeCallback "ZERO_RESULTS"
        [{ address_components := [{ long_name := "Paris", types := ["locality"] }] }]
      = "Unknown Location" := by
  refine ⟨?_, ?_, ?_⟩
  · exact (geocode_name_composition
        [{ long_name := "Shibuya", types := ["sublocality_level_2", "sublocality"] },
         { long_name := "Tokyo", types := ["locality"] }]
        "" [] "Shibuya" "Tokyo" "" "").1 (by decide) (by decide) (by decide) (by decide)
  · exact ((geocode_name_composition
        [{ long_name := "Paris", types := ["locality"] }]
        "" [] "" "Paris" "" "").2.1 (by decide)).1 (by decide) (by decide)
  · exact (geocode_name_composition []
        "ZERO_RESULTS"
        [{ address_components := [{ long_name := "Paris", types := ["locality"] }] }]
        "" "" "" "").2.2.1 (by decide)

/-- Lookup on a cons cell. -/
theorem paramsGet_cons (p : String × String) (ps : List (String × String)) (k : String) :
    paramsGet (p :: ps) k = if p.1 == k then some p.2 else paramsGet ps k := by
  by_cases h : p.1 == k <;> simp [paramsGet, h]

/-- Delete on a cons cell. -/
theorem paramsDelete_cons (p : String × String) (ps : List (String × String)) (k : String) :
    paramsDelete (p :: ps) k
      = if p.1 == k then paramsDelete ps k else p :: paramsDelete ps k := by
  by_cases h : p.1 == k <;> simp [paramsDelete, List.filter_cons, h]

/-- Set on a cons cell. -/
theorem paramsSet_cons (p : String × String) (ps : List (String × String)) (k v : String) :
    paramsSet (p :: ps) k v
      = if p.1 == k then (k, v) :: paramsDelete ps k else p :: paramsSet ps k v := by
  by_cases h : p.1 == k <;> simp [paramsSet, paramsDelete, h]

/-- Setting a key makes it retrievable with the new value. -/
theorem paramsGet_set_self (ps : List (String × String)) (k v : String) :
    paramsGet (paramsSet ps k v) k = some v := by
  induction ps with
  | nil => simp [paramsSet, paramsGet]
  | cons p rest ih =>
    rw [paramsSet_cons]
    by_cases h : p.1 == k
    · simp [h, paramsGet_cons]
    · simp [h, paramsGet_cons, ih]

/-- Deleting a key makes lookups for it misses. -/
theorem paramsGet_delete_self (ps : List (String × String)) (k : String) :
    paramsGet (paramsDelete ps k) k = none := by
  induction ps with
  | nil => rfl
  | cons p rest ih =>
    rw [paramsDelete_cons]
    by_cases h : p.1 == k
    · simpa [h] using ih
    · simp [h, paramsGet_cons, ih]

/-- Deleting one key leaves lookups of other keys unchanged. -/
theorem paramsGet_delete_other (ps : List (String × String)) (k k2 : String)
    (h : k2 ≠ k) : paramsGet (paramsDelete ps k) k2 = paramsGet ps k2 := by
  induction ps with
  | nil => rfl
  | cons p rest ih =>
    by_cases hp : p.1 == k
    · have hpk2 : (p.1 == k2) = false := by
        have hpk : p.1 = k := by simpa using hp
        simpa [hpk] using Ne.symm h
      simp [paramsDelete_cons, hp, paramsGet_cons, hpk2, ih]
    · simp [paramsDelete_cons, hp, paramsGet_cons, ih]

/-- Setting one key leaves lookups of other keys unchanged. -/
theorem paramsGet_set_other (ps : List (String × String)) (k k2 v : String)
    (h : k2 ≠ k) : paramsGet (paramsSet ps k v) k2 = paramsGet ps k2 := by
  have hk2 : ((k : String) == k2) = false := by simpa using Ne.symm h
  induction ps with
  | nil => simp [paramsSet, paramsGet_cons, hk2, paramsGet]
  | cons p rest ih =>
    by_cases hp : p.1 == k
    · have hpk2 : (p.1 == k2) = false := by
        have hpk : p.1 = k := by simpa using hp
        simpa [hpk] using Ne.symm h
      simp [paramsSet_cons, hp, paramsGet_cons, hpk2, hk2,
        paramsGet_delete_other rest k k2 h]
    · simp [paramsSet_cons, hp, paramsGet_cons, ih]

/-- The serialized-update fold leaves keys it never touches unchanged. -/
theorem applySerialized_not_mem (ser ps : List (String × String)) (k : String)
    (h : k ∉ ser.map Prod.fst) :
    paramsGet (applySerialized ps ser) k = paramsGet ps k := by
  induction ser generalizing ps with
  | nil => rfl
  | cons kv rest ih =>
    have hk : k ≠ kv.1 := by
      intro hk
      exact h (by simp [hk])
    have hrest : k ∉ rest.map Prod.fst := fun hm => h (by simp [hm])
    show paramsGet (applySerialized
      (if kv.2 == "" then paramsDelete ps kv.1 else paramsSet ps kv.1 kv.2) rest) k
      = paramsGet ps k
    rw [ih _ hrest]
    by_cases hv : kv.2 == "" <;>
      simp [hv, paramsGet_delete_other ps kv.1 k hk, paramsGet_set_other ps kv.1 k kv.2 hk]

/-- After the serialized-update fold, each serialized key reads back its
value when the value is non-empty and is absent when the value is empty
(provided the serialized keys are distinct, as they are for an object
literal's fields). -/
theorem applySerialized_mem (ser : List (String × String))
    (ps : List (String × String)) (k v : String)
    (hmem : (k, v) ∈ ser) (hnd : (ser.map Prod.fst).Nodup) :
    paramsGet (applySerialized ps ser) k = if v = "" then none else some v := by
  induction ser generalizing ps with
  | nil => exact absurd hmem (List.not_mem_nil _)
  | cons kv rest ih =>
    rcases List.mem_cons.mp hmem with hkv | htail
    · have hrest : k ∉ rest.map Prod.fst := by
        have := (List.nodup_cons.mp hnd).1
        simpa [← hkv] using this
      show paramsGet (applySerialized
        (if kv.2 == "" then paramsDelete ps kv.1 else paramsSet ps kv.1 kv.2) rest) k
        = if v = "" then none else some v
      rw [applySerialized_not_mem rest _ k hrest, ← hkv]
      by_cases hv : v = "" <;>
        simp [hv, paramsGet_delete_self, paramsGet_set_self]
    · have hnd' := (List.nodup_cons.mp hnd).2
      show paramsGet (applySerialized
        (if kv.2 == "" then paramsDelete ps kv.1 else paramsSet ps kv.1 kv.2) rest) k
        = if v = "" then none else some v
      exact ih _ htail hnd'

/-- C9: the very first synchronization pass only clears the first-render
flag — it pushes no history entry and leaves the query string untouched; on
every later pass each serialized key is written into the query string when
its value is non-empty and removed when it is empty, and exactly one new
history entry is pushed. -/
theorem urlUpdateEffect_behavior (b : Browser) (ser : List (String × String))
    (k v : String) :
    urlUpdateEffect true b ser = (false, b) ∧
    (urlUpdateEffect false b ser).2.historyCount = b.historyCount + 1 ∧
    ((k, v) ∈ ser → (ser.map Prod.fst).Nodup →
      paramsGet (urlUpdateEffect false b ser).2.query k
        = if v = "" then none else some v) := by
  refine ⟨rfl, rfl, ?_⟩
  intro hmem hnd
  exact applySerialized_mem ser b.query k v hmem hnd

/-- C9 witness: with serialized pairs `lat=40.7` and `zoom=` (empty), a
non-first pass writes `lat`, removes `zoom`, and bumps the history count. -/
theorem urlUpdateEffect_behavior_witness :
    urlUpdateEffect true { historyCount := 3, query := [("zoom", "10")] }
        [("lat", "40.7"), ("zoom", "")]
      = (false, { historyCount := 3, query := [("zoom", "10")] }) ∧
    (urlUpdateEffect false { historyCount := 3, query := [("zoom", "10")] }
        [("lat", "40.7"), ("zoom", "")]).2.historyCount = 4 ∧
    paramsGet (urlUpdateEffect false { historyCount := 3, query := [("zoom", "10")] }
        [("lat", "40.7"), ("zoom", "")]).2.query "lat" = some "40.7" ∧
    paramsGet (urlUpdateEffect false { historyCount := 3, query := [("zoom", "10")] }
        [("lat", "40.7"), ("zoom", "")]).2.query "zoom" = none := by
  refine ⟨(urlUpdateEffect_behavior _ _ "" "").1,
    (urlUpdateEffect_behavior _ _ "" "").2.1, ?_, ?_⟩
  · have h := (urlUpdateEffect_behavior
      { historyCount := 3, query := [("zoom", "10")] }
      [("lat", "40.7"), ("zoom", "")] "lat" "40.7").2.2 (by decide) (by decide)
    simpa using h
  · have h := (urlUpdateEffect_behavior
      { historyCount := 3, query := [("zoom", "10")] }
      [("lat", "40.7"), ("zoom", "")] "zoom" "").2.2 (by decide) (by decide)
    simpa using h

/-- Cache keys are never the empty string (they contain the comma), so the
`if (firstKey)` truthiness guard never skips an eviction. -/
theorem getCacheKey_ne_empty (lat lon : ℚ) : getCacheKey lat lon ≠ "" := by
  intro h
  have h1 := congrArg String.length h
  simp only [getCacheKey, String.length_append,
    show ("," : String).length = 1 from rfl,
    show ("" : String).length = 0 from rfl] at h1
  omega

/-- A key that is not in the map looks up to a miss. -/
theorem mapFindVal_not_mem (m : CacheMap) (k : String)
    (h : k ∉ m.map Prod.fst) : mapFindVal m k = none := by
  induction m with
  | nil => rfl
  | cons p rest ih =>
    have hpk : (p.1 == k) = false := by
      simp only [beq_eq_false_iff_ne, ne_eq]
      intro he
      exact h (by simp [← he])
    have hrest : k ∉ rest.map Prod.fst := fun hm => h (by simp [hm])
    have htail := ih hrest
    simp only [mapFindVal, List.find?_cons, hpk] at htail ⊢
    exact htail

/-- With distinct keys, a present entry looks up to its own value. -/
theorem mapFindVal_of_mem_nodup (m : CacheMap) (k : String) (v : GeocodeCache)
    (hm : (k, v) ∈ m) (hnd : (m.map Prod.fst).Nodup) : mapFindVal m k = some v := by
  induction m with
  | nil => exact absurd hm (List.not_mem_nil _)
  | cons p rest ih =>
    rcases List.mem_cons.mp hm with rfl | htail
    · simp [mapFindVal, List.find?_cons]
    · have hnd2 : (p.1 :: rest.map Prod.fst).Nodup := by simpa using hnd
      have hpk : (p.1 == k) = false := by
        simp only [beq_eq_false_iff_ne, ne_eq]
        intro he
        exact (List.nodup_cons.mp hnd2).1
          (he ▸ List.mem_map_of_mem Prod.fst htail)
      have htl := ih htail (List.nodup_cons.mp hnd2).2
      simp only [mapFindVal, List.find?_cons, hpk] at htl ⊢
      exact htl

/-- Writing a fresh key appends the entry in insertion order. -/
theorem mapSet_append_of_not_mem (m : CacheMap) (k : String) (v : GeocodeCache)
    (h : k ∉ m.map Prod.fst) : mapSet m k v = m ++ [(k, v)] := by
  have hany : m.any (fun p => p.1 == k) = false := by
    rw [List.any_eq_false]
    intro p hp
    simp only [Bool.not_eq_true, beq_eq_false_iff_ne, ne_eq]
    intro he
    exact h (he ▸ List.mem_map_of_mem Prod.fst hp)
  simp [mapSet, hany]

/-- Deleting the head key of a distinct-key map gives the tail. -/
theorem mapDelete_cons_self (p : String × GeocodeCache) (rest : CacheMap)
    (h : p.1 ∉ rest.map Prod.fst) : mapDelete (p :: rest) p.1 = rest := by
  have hhead : (!(p.1 == p.1)) = false := by simp
  rw [mapDelete, List.filter_cons, hhead]
  simp only [Bool.false_eq_true, if_false]
  apply List.filter_eq_self.mpr
  intro q hq
  have hne : q.1 ≠ p.1 := fun he => h (he ▸ List.mem_map_of_mem Prod.fst hq)
  simp [hne]

/-- One `set` call with a fresh key on a well-formed cache: at capacity the
head entry is evicted, then the new entry is appended. -/
theorem cacheSet_fresh (m : CacheMap) (x : SetCall)
    (hlen : m.length ≤ 100) (hne : ∀ p ∈ m, p.1 ≠ "")
    (hnd : (m.map Prod.fst).Nodup) (hfresh : keyOf x ∉ m.map Prod.fst) :
    cacheSet m x.lat x.lon x.name x.now
      = (if m.length = 100 then m.tail else m) ++ [entryOf x] := by
  rcases m with _ | ⟨p, rest⟩
  · simp [cacheSet, MAX_CACHE_SIZE, mapSet, entryOf, keyOf]
  · by_cases hl : (p :: rest).length = 100
    · have hge : (p :: rest).length ≥ MAX_CACHE_SIZE := by
        simp [MAX_CACHE_SIZE, hl]
      have hpne : (p.1 == "") = false := by
        simpa using hne p (List.mem_cons_self p rest)
      have hnd2 : (p.1 :: rest.map Prod.fst).Nodup := by
        simpa only [List.map_cons] using hnd
      have hptail : p.1 ∉ rest.map Prod.fst := (List.nodup_cons.mp hnd2).1
      have hdel := mapDelete_cons_self p rest hptail
      have hfresh2 : keyOf x ∉ rest.map Prod.fst := fun hmem =>
        hfresh (by simp [hmem])
      simp only [cacheSet, ge_iff_le, hge, if_pos, List.head?_cons, hpne,
        Bool.false_eq_true, if_false, hdel, hl, List.tail_cons, reduceIte]
      exact mapSet_append_of_not_mem rest (keyOf x) _ hfresh2
    · have hlt : ¬((p :: rest).length ≥ MAX_CACHE_SIZE) := by
        simp only [MAX_CACHE_SIZE]
        omega
      simp only [cacheSet, hlt, if_false, hl, reduceIte]
      exact mapSet_append_of_not_mem (p :: rest) (keyOf x) _ hfresh

/-- Taking `n` ignores anything beyond the first `n` of the right summand. -/
theorem take_append_take (n : Nat) (A B : List (String × GeocodeCache)) :
    (A ++ B.take n).take n = (A ++ B).take n := by
  rw [List.take_append_eq_append_take, List.take_append_eq_append_take,
    List.take_take, Nat.min_eq_left (Nat.sub_le n A.length)]

/-- The reversal of one eviction-and-append step is a `take` of the
reversal of a plain append. -/
theorem reverse_evict_take (c : CacheMap) (e : String × GeocodeCache)
    (hlen : c.length ≤ 100) :
    ((if c.length = 100 then c.tail else c) ++ [e]).reverse
      = ((c ++ [e]).reverse).take 100 := by
  rw [List.reverse_append, List.reverse_append]
  simp only [List.reverse_cons, List.reverse_nil, List.nil_append,
    List.singleton_append]
  rw [show (100 : Nat) = 99 + 1 from rfl, List.take_succ_cons]
  by_cases h : c.length = 100
  · rw [if_pos h]
    rcases c with _ | ⟨p, t⟩
    · simp at h
    · have ht : t.reverse.length = 99 := by
        simp only [List.length_reverse]
        simpa using h
      rw [List.tail_cons, List.reverse_cons, List.take_left' ht]
  · rw [if_neg h]
    rw [List.take_of_length_le]
    simp only [List.length_reverse]
    omega

/-- Running a sequence of fresh-keyed `set` calls keeps, in insertion order,
the last 100 of the would-be entries: the cache reversed is the first 100 of
the reversed concatenation. -/
theorem cacheSetMany_reverse (l : List SetCall) (c : CacheMap)
    (hlen : c.length ≤ 100)
    (hne : ∀ p ∈ c, p.1 ≠ "")
    (hnd : (c.map Prod.fst ++ l.map keyOf).Nodup) :
    (cacheSetMany c l).reverse = ((c ++ l.map entryOf).reverse).take 100 := by
  induction l generalizing c with
  | nil =>
    simp only [cacheSetMany, List.foldl_nil, List.map_nil, List.append_nil]
    exact (List.take_of_length_le (by simpa using hlen)).symm
  | cons x xs ih =>
    obtain ⟨hndc, hndxl, hdisj⟩ := List.nodup_append.mp hnd
    have hfresh : keyOf x ∉ c.map Prod.fst := fun hmem =>
      hdisj hmem (by simp)
    have hstep := cacheSet_fresh c x hlen hne hndc hfresh
    show (cacheSetMany (cacheSet c x.lat x.lon x.name x.now) xs).reverse = _
    rw [hstep]
    have hevsub : List.Sublist (if c.length = 100 then c.tail else c) c := by
      split
      · exact List.tail_sublist c
      · exact List.Sublist.refl c
    have hevlen : ((if c.length = 100 then c.tail else c) ++ [entryOf x]).length ≤ 100 := by
      rw [List.length_append]
      split <;> simp only [List.length_tail, List.length_cons, List.length_nil] <;> omega
    have hne' : ∀ p ∈ (if c.length = 100 then c.tail else c) ++ [entryOf x], p.1 ≠ "" := by
      intro p hp
      rcases List.mem_append.mp hp with hp | hp
      · exact hne p (hevsub.subset hp)
      · rw [List.mem_singleton.mp hp]
        exact getCacheKey_ne_empty x.lat x.lon
    have hnd' : (((if c.length = 100 then c.tail else c) ++ [entryOf x]).map Prod.fst
        ++ xs.map keyOf).Nodup := by
      have hre : ((c.map Prod.fst ++ [keyOf x]) ++ xs.map keyOf).Nodup := by
        have := hnd
        rw [List.map_cons, List.append_cons] at this
        exact this
      refine List.Nodup.sublist ?_ hre
      refine List.Sublist.append ?_ (List.Sublist.refl _)
      rw [List.map_append]
      refine List.Sublist.append (hevsub.map Prod.fst) ?_
      simp [entryOf]
    rw [ih ((if c.length = 100 then c.tail else c) ++ [entryOf x]) hevlen hne' hnd']
    rw [List.map_cons, List.append_cons c (entryOf x) (xs.map entryOf)]
    rw [List.reverse_append ((if c.length = 100 then c.tail else c) ++ [entryOf x]),
      List.reverse_append (c ++ [entryOf x])]
    rw [reverse_evict_take c (entryOf x) hlen]
    exact take_append_take 100 (xs.map entryOf).reverse ((c ++ [entryOf x]).reverse)

/-- C5: the cache never holds more than 100 entries (the bound is enforced
on every write), and for every sequence of at least 101 `set` calls with
distinct rounded-coordinate keys starting from an empty cache, the
earliest-inserted key is absent afterwards while each of the 100 most
recently inserted keys still retrieves its name (the final cache is exactly
the last 100 written entries in insertion order, so eviction removed the
earliest-inserted entries). -/
theorem geocodingCache_capacity_eviction (l : List SetCall) (q : Int)
    (hnd : (l.map keyOf).Nodup) (hlen : 101 ≤ l.length)
    (httl : ∀ x ∈ l, q - x.now ≤ CACHE_TTL) :
    (∀ (m : CacheMap) (lat lon : ℚ) (nm : String) (now : Int),
      (∀ p ∈ m, p.1 ≠ "") → m.length ≤ 100 →
      (cacheSet m lat lon nm now).length ≤ 100) ∧
    (cacheSetMany [] l).reverse = ((l.map entryOf).reverse).take 100 ∧
    (cacheSetMany [] l).length ≤ 100 ∧
    (∀ x₀, l.head? = some x₀ →
      (cacheGet (cacheSetMany [] l) x₀.lat x₀.lon q).2 = none) ∧
    (∀ x ∈ l.drop (l.length - 100),
      (cacheGet (cacheSetMany [] l) x.lat x.lon q).2 = some x.name) := by
  have hchar : (cacheSetMany [] l).reverse = ((l.map entryOf).reverse).take 100 := by
    have h := cacheSetMany_reverse l [] (by simp) (by simp) (by simpa using hnd)
    simpa using h
  have hdrop : cacheSetMany [] l = (l.map entryOf).drop (l.length - 100) := by
    apply List.reverse_injective
    rw [hchar, List.take_reverse, List.length_map]
  have hkeys : (cacheSetMany [] l).map Prod.fst = (l.map keyOf).drop (l.length - 100) := by
    rw [hdrop, List.map_drop, List.map_map]
    rfl
  refine ⟨?_, hchar, ?_, ?_, ?_⟩
  · intro m lat lon nm now hne hm100
    have hset : ∀ (m2 : CacheMap) k v, (mapSet m2 k v).length ≤ m2.length + 1 := by
      intro m2 k v
      by_cases hany : m2.any (fun p => p.1 == k) <;>
        simp [mapSet, hany]
    by_cases hful : m.length ≥ MAX_CACHE_SIZE
    · have h100 : m.length = 100 := by
        simp only [MAX_CACHE_SIZE] at hful
        omega
      rcases m with _ | ⟨p, rest⟩
      · simp at h100
      · have hpne : (p.1 == "") = false := by
          simpa using hne p (List.mem_cons_self p rest)
        have hdellen : (mapDelete (p :: rest) p.1).length ≤ rest.length := by
          simp only [mapDelete, List.filter_cons, beq_self_eq_true, Bool.not_true,
            Bool.false_eq_true, if_false, reduceIte]
          exact List.length_filter_le _ rest
        calc (cacheSet (p :: rest) lat lon nm now).length
            ≤ (mapDelete (p :: rest) p.1).length + 1 := by
              simp only [cacheSet, hful, if_pos, List.head?_cons, hpne,
                Bool.false_eq_true, if_false, reduceIte]
              exact hset _ _ _
          _ ≤ 100 := by
              have : rest.length = 99 := by simpa using h100
              omega
    · calc (cacheSet m lat lon nm now).length
          ≤ m.length + 1 := by
            simp only [cacheSet, hful, if_false, reduceIte]
            exact hset _ _ _
        _ ≤ 100 := by
            simp only [MAX_CACHE_SIZE, ge_iff_le, not_le] at hful
            omega
  · rw [hdrop, List.length_drop, List.length_map]
    omega
  · intro x₀ hx₀
    have hnotmem : keyOf x₀ ∉ (cacheSetMany [] l).map Prod.fst := by
      rw [hkeys]
      intro hmem
      rcases l with _ | ⟨y, rest⟩
      · simp at hx₀
      · have hy : y = x₀ := by simpa using hx₀
        subst hy
        obtain ⟨m', hm'⟩ : ∃ m', (y :: rest).length - 100 = m' + 1 := by
          refine ⟨(y :: rest).length - 101, ?_⟩
          simp only [List.length_cons] at hlen ⊢
          omega
        rw [List.map_cons, hm', List.drop_succ_cons] at hmem
        have hmem2 : keyOf y ∈ rest.map keyOf :=
          (List.drop_sublist m' (rest.map keyOf)).subset hmem
        have hh : (keyOf y :: rest.map keyOf).Nodup := by simpa using hnd
        exact (List.nodup_cons.mp hh).1 hmem2
    have hmiss := mapFindVal_not_mem (cacheSetMany [] l) (keyOf x₀) hnotmem
    simp only [cacheGet, keyOf] at hmiss ⊢
    rw [hmiss]
  · intro x hx
    have hmemF : entryOf x ∈ cacheSetMany [] l := by
      rw [hdrop]
      have h1 : entryOf x ∈ (l.drop (l.length - 100)).map entryOf :=
        List.mem_map_of_mem entryOf hx
      rwa [List.map_drop] at h1
    have hndF : ((cacheSetMany [] l).map Prod.fst).Nodup := by
      rw [hkeys]
      exact List.Nodup.sublist (List.drop_sublist _ _) hnd
    have hfind := mapFindVal_of_mem_nodup (cacheSetMany [] l) (keyOf x)
      { locationName := x.name, timestamp := x.now } hmemF hndF
    have hle : q - x.now ≤ CACHE_TTL := httl x ((List.drop_sublist _ _).subset hx)
    simp only [cacheGet, keyOf] at hfind ⊢
    rw [hfind]
    simp [not_lt.mpr hle]

set_option maxRecDepth 20000 in
/-- C5 witness: the capacity theorem applied to 101 concrete distinct-key
`set` calls — the first key misses afterwards, the last still hits. -/
theorem geocodingCache_capacity_eviction_witness :
    ((c5Calls.map keyOf).Nodup ∧ 101 ≤ c5Calls.length ∧
      (∀ x ∈ c5Calls, (0 : Int) - x.now ≤ CACHE_TTL)) ∧
    (cacheGet (cacheSetMany [] c5Calls) 0 0 0).2 = none ∧
    (cacheGet (cacheSetMany [] c5Calls) 100 0 0).2 = some "L" := by
  have h1 : (c5Calls.map keyOf).Nodup := by decide
  have h2 : 101 ≤ c5Calls.length := by decide
  have h3 : ∀ x ∈ c5Calls, (0 : Int) - x.now ≤ CACHE_TTL := by decide
  have main := geocodingCache_capacity_eviction c5Calls 0 h1 h2 h3
  refine ⟨⟨h1, h2, h3⟩, ?_, ?_⟩
  · exact main.2.2.2.1 { lat := 0, lon := 0, name := "L", now := 0 } (by decide)
  · exact main.2.2.2.2 { lat := 100, lon := 0, name := "L", now := 0 } (by decide)
